import Mathlib

/-
  Shallow embedding of the scala-applogs-client log-shipping pipeline
  (Go sources: pkg applogs in src/v1/applogs.go and pkg logger in
  src/unnamed/part_001, plus the recovery scanner at the end of
  src/v1/applogs.go).

  External effects (Redis LPush results, json.Marshal outcomes, spool-file
  open/write outcomes, json.Unmarshal of spool lines) are parameters of the
  embedded functions; the state threaded through is the Redis store, the
  active spool file contents and the records emitted to the zap
  structured-logger collaborator.
-/

set_option autoImplicit false

namespace Applogs

/-- Record emitted to the zap structured-logger collaborator: the level of
the zap call, its message, and the string fields attached to it. -/
structure ZapRec where
  level : String
  message : String
  fields : List (String × String)
deriving DecidableEq, Repr

/-- Metadata map of a log call (Go `map[string]interface{}`), abstracted to
string-valued fields; insertion order is irrelevant to every claim here. -/
abbrev Metadata := List (String × String)

/-- The wire-shaped log record built by `LogToRedis` (Go: the `logData`
map with keys timestamp, level, message, metadata, service_name,
instance_id, facility_id, instance_type). Serialization to JSON is
abstracted away: the record itself is what is stored or spooled, and
"JSON-decodes to level l, message m" is read off the fields. -/
structure LogData where
  timestamp : Nat
  level : String
  message : String
  metadata : Metadata
  service_name : String
  instance_id : String
  facility_id : String
  instance_type : String
deriving DecidableEq, Repr

/-- Process-wide identity fields (Go globals serviceName, instanceID,
facilityID, instanceType in pkg logger). -/
structure Globals where
  serviceName : String
  instanceID : String
  facilityID : String
  instanceType : String
deriving DecidableEq, Repr

/-- Key computed by the dispatcher side, Go `LogToRedis`:
`key := "applogs:" + facilityID + ":" + instanceType + ":" + serviceName + ":" + instanceID`. -/
def logToRedisKey (g : Globals) : String :=
  "applogs:" ++ g.facilityID ++ ":" ++ g.instanceType ++ ":" ++ g.serviceName ++ ":" ++ g.instanceID

/-- Key recomputed by the recovery scanner from a record's own embedded
identity fields, Go `pushBatchToRedis`:
`key := "applogs:" + logData["facility_id"].(string) + ":" + ...`. -/
def pushBatchKey (d : LogData) : String :=
  "applogs:" ++ d.facility_id ++ ":" ++ d.instance_type ++ ":" ++ d.service_name ++ ":" ++ d.instance_id

/-- Modelled from the spec (not from the source): the spec's RoutingKey,
the string `<facility_id>:<instance_type>:<service_name>:<instance_id>`
built from the four identity fields, with no further decoration. Used only
to compare the spec's wording with the key the source actually builds. -/
def specRoutingKey (facilityId instanceType serviceName instanceId : String) : String :=
  facilityId ++ ":" ++ instanceType ++ ":" ++ serviceName ++ ":" ++ instanceId

/-- Redis error value observed by the dispatcher. `redisUnavailable` is the
sentinel `ErrRedisUnavailable` (matched by `errors.Is`); `other msg` is any
other error whose `Error()` text is `msg`. -/
inductive RedisErr where
  | redisUnavailable
  | other (msg : String)
deriving DecidableEq, Repr

/-- Go `err.Error()`: the sentinel's text is "redis is unavailable". -/
def RedisErr.text : RedisErr → String
  | .redisUnavailable => "redis is unavailable"
  | .other msg => msg

/-- Decidable infix check on character lists, embedding Go
`strings.Contains` (substring search). -/
def listContainsSub (pat s : List Char) : Bool :=
  match s with
  | [] => pat.isEmpty
  | _ :: rest => pat.isPrefixOf s || listContainsSub pat rest

/-- Go `strings.Contains(s, pat)`. -/
def strContains (s pat : String) : Bool :=
  listContainsSub pat.data s.data

/-- Go `isRedisUnavailable`:
`errors.Is(err, ErrRedisUnavailable) || strings.Contains(err.Error(), "connection refused")`. -/
def isRedisUnavailable (err : RedisErr) : Bool :=
  (err = RedisErr.redisUnavailable) || strContains err.text "connection refused"

/-- Redis modelled as an association list from key to the list stored at
that key, head first (index 0 of LRANGE at the head). -/
abbrev Store := List (String × List LogData)

/-- Go-redis `LPush key v`: prepends `v` to the list at `key`, creating the
key if absent. -/
def lpush (store : Store) (key : String) (v : LogData) : Store :=
  match store with
  | [] => [(key, [v])]
  | (k, l) :: rest => if k = key then (k, v :: l) :: rest else (k, l) :: lpush rest key v

/-- List stored at `key` (what `LRANGE key 0 -1` / miniredis `List` returns),
head at index 0. -/
def getList (store : Store) (key : String) : List LogData :=
  match store with
  | [] => []
  | (k, l) :: rest => if k = key then l else getList rest key

/-- Outcomes of the external calls one `LogToRedis` invocation can make:
the result of `json.Marshal` (source returns early on failure), the result
of `rdb.LPush` (`none` means success), and the outcomes of the spool-file
`os.OpenFile` and `file.WriteString` calls inside `logToFallback`. -/
structure Env where
  marshalErr : Bool
  pushErr : Option RedisErr
  openErr : Bool
  writeErr : Bool
deriving DecidableEq, Repr

/-- Observable pipeline state: the Redis store, the lines of the active
spool file (as records; one JSON line per record), and the records emitted
to the zap structured-logger collaborator. -/
structure PState where
  store : Store
  fallback : List LogData
  zap : List ZapRec
deriving DecidableEq, Repr

/-- Go `logToFallback`: opens the spool file in append mode; on open error
logs an error and returns (the entry is lost); otherwise writes the record
as one line. The source ignores the results of `json.Marshal` (`data, _ :=`)
and of `file.WriteString`, so a failed write loses the entry with no logger
record. The function always returns normally (nothing is raised). -/
def logToFallback (e : Env) (st : PState) (d : LogData) : PState :=
  if e.openErr then
    { st with zap := st.zap ++ [⟨"error", "Failed to open fallback log file", []⟩] }
  else if e.writeErr then
    st
  else
    { st with fallback := st.fallback ++ [d] }

/-- The `logData` map built at the top of Go `LogToRedis`. -/
def mkLogData (g : Globals) (now : Nat) (level message : String) (fields : Metadata) : LogData :=
  { timestamp := now, level := level, message := message, metadata := fields,
    service_name := g.serviceName, instance_id := g.instanceID,
    facility_id := g.facilityID, instance_type := g.instanceType }

/-- Go `LogToRedis`: builds `logData`, computes the key, marshals (error →
log and return), LPushes; on push error either falls back to disk (when
`isRedisUnavailable`) after a warning, or logs an error and drops. -/
def LogToRedis (g : Globals) (now : Nat) (e : Env) (st : PState)
    (level message : String) (fields : Metadata) : PState :=
  let logData := mkLogData g now level message fields
  let key := logToRedisKey g
  if e.marshalErr then
    { st with zap := st.zap ++ [⟨"error", "Failed to marshal log data to JSON", []⟩] }
  else
    match e.pushErr with
    | none => { st with store := lpush st.store key logData }
    | some err =>
      if isRedisUnavailable err then
        logToFallback e
          { st with zap := st.zap ++ [⟨"warn", "Redis unavailable, saving to fallback", []⟩] }
          logData
      else
        { st with zap := st.zap ++ [⟨"error", "Failed to push log to Redis", []⟩] }

/-- The `logEntry` struct queued by `logAsync` in src/v1/applogs.go. -/
structure QEntry where
  level : String
  message : String
  fields : Metadata
deriving DecidableEq, Repr

/-- The `switch entry.level` mirror in Go `processLogs`: after `LogToRedis`,
the entry is also logged to zap at its own level (only for the five known
levels). -/
def mirrorZap (st : PState) (en : QEntry) : PState :=
  if en.level = "info" || en.level = "debug" || en.level = "warn"
      || en.level = "error" || en.level = "fatal" then
    { st with zap := st.zap ++ [⟨en.level, en.message, []⟩] }
  else
    st

/-- Go `processLogs`: the single dispatcher goroutine ranges over the queue
in FIFO order; for each entry it calls `LogToRedis` then mirrors to zap. -/
def processLogs (g : Globals) (now : Nat) (e : Env) : PState → List QEntry → PState
  | st, [] => st
  | st, en :: rest =>
      processLogs g now e (mirrorZap (LogToRedis g now e st en.level en.message en.fields) en) rest

/-- The bounded ingestion queue: Go buffered channel `logQueue` of capacity
`cap`, with its buffered entries and whether `close` has run. -/
structure Queue where
  cap : Nat
  buf : List QEntry
  closed : Bool
deriving DecidableEq, Repr

/-- Outcome of one `logAsync` call: the entry was buffered, or the select
hit `default` and dropped it with a zap warning, or the goroutine panicked
(in Go, a send on a closed channel inside `select` is chosen and panics). -/
inductive EnqResult where
  | enqueued (q : Queue)
  | dropped (q : Queue) (warn : ZapRec)
  | panicked
deriving DecidableEq, Repr

/-- The zap warning emitted when the queue is full, carrying the dropped
entry's level and message as string fields. -/
def queueFullWarn (level message : String) : ZapRec :=
  ⟨"warn", "Log queue is full, dropping log", [("level", level), ("message", message)]⟩

/-- Go `logAsync`: `select { case a.logQueue <- entry: default: Warn(...) }`.
A send on a closed channel is ready in a `select` and panics when executed,
so the closed case never reaches `default`; otherwise the entry is appended
when the buffer has room and dropped (with the warning) when it is full. -/
def logAsync (q : Queue) (level message : String) (fields : Metadata) : EnqResult :=
  if q.closed then
    .panicked
  else if q.buf.length < q.cap then
    .enqueued { q with buf := q.buf ++ [⟨level, message, fields⟩] }
  else
    .dropped q (queueFullWarn level message)

/-- Go `StopLogger`: closes the queue and logs an info record. -/
def StopLogger (q : Queue) : Queue × ZapRec :=
  ({ q with closed := true }, ⟨"info", "Logger stopped gracefully", []⟩)

/-- Sequence of producer calls folded through `logAsync` with a stalled
consumer (nothing is dequeued in between). Returns the final queue and the
drop warnings in order, or `none` if some call panicked. -/
def enqueueAll : Queue → List QEntry → Option (Queue × List ZapRec)
  | q, [] => some (q, [])
  | q, en :: rest =>
    match logAsync q en.level en.message en.fields with
    | .enqueued q2 => enqueueAll q2 rest
    | .dropped q2 w => (enqueueAll q2 rest).map (fun p => (p.1, w :: p.2))
    | .panicked => none

/-- Outcomes of the external calls one `pushBatchToRedis` invocation makes:
the result of `pipe.Exec` and, when it succeeds, the per-command errors of
the pipelined LPushes (`none` = that record's push succeeded). -/
structure BatchEnv where
  execErr : Option RedisErr
  cmdErrs : List (Option RedisErr)
deriving DecidableEq, Repr

/-- Go `pushBatchToRedis`: queues one `pipe.LPush(ctx, key, data)` per
record at the key recomputed from the record's own embedded identity
fields (marshalling is modelled as succeeding; a record whose marshal
fails is skipped with `continue` in the source), then `pipe.Exec`: if the
pipeline fails that error is returned; otherwise `finalErr` ends up as the
last non-nil per-command error (nil when every record succeeded). Returns
the queued pushes and the error result. -/
def pushBatchToRedis (be : BatchEnv) (logs : List LogData) :
    List (String × LogData) × Option RedisErr :=
  (logs.map (fun d => (pushBatchKey d, d)),
   match be.execErr with
   | some err => some err
   | none => (be.cmdErrs.filterMap id).getLast?)

/-- Final disposition of one spool file in a recovery cycle. -/
inductive Disposition where
  | renamedCorrupt
  | deleted
  | untouched
deriving DecidableEq, Repr

/-- Result of processing one spool file: its disposition, the batch of
parsed records accumulated for it, and whether `pushBatchToRedis` was
invoked (it is called only when the batch is non-empty). -/
structure FileResult where
  disposition : Disposition
  batch : List LogData
  pushed : Bool
deriving DecidableEq, Repr

/-- The scan loop of Go `recoverFallbackLogs` over one file: skip empty
lines; a line `json.Unmarshal` rejects sets `corrupt` and is skipped;
parsed records are appended to the batch. The accumulator is
(batch so far, corrupt flag). -/
def scanLines (parse : String → Option LogData) : List String → List LogData × Bool → List LogData × Bool
  | [], acc => acc
  | line :: rest, acc =>
    if line.length = 0 then
      scanLines parse rest acc
    else
      match parse line with
      | none => scanLines parse rest (acc.1, true)
      | some d => scanLines parse rest (acc.1 ++ [d], acc.2)

/-- Per-file body of Go `recoverFallbackLogs`: scan all lines, push the
batch when non-empty (a push error sets `redisPushFailed`), then dispose:
corrupt → rename to `name + ".corrupt"`, else if the push did not fail →
remove, else leave in place. -/
def processFallbackFile (parse : String → Option LogData) (be : BatchEnv)
    (lines : List String) : FileResult :=
  let scanned := scanLines parse lines ([], false)
  let batchLogs := scanned.1
  let corrupt := scanned.2
  let redisPushFailed :=
    if batchLogs.length > 0 then (pushBatchToRedis be batchLogs).2.isSome else false
  { disposition :=
      if corrupt then .renamedCorrupt
      else if !redisPushFailed then .deleted
      else .untouched,
    batch := batchLogs,
    pushed := batchLogs.length > 0 }

/-- Scan of a reversed character list for Go `filepath.Ext`: walking from
the end of the name, stop at a path separator with no extension, or return
the suffix from the last dot. `acc` holds the characters already passed,
in original order. -/
def extAux : List Char → List Char → Option String
  | _, [] => none
  | acc, c :: rest =>
    if c = '/' then none
    else if c = '.' then some (String.mk ('.' :: acc))
    else extAux (c :: acc) rest

/-- Go `filepath.Ext(name)`: the suffix beginning at the final dot in the
final path element, empty if there is no dot. -/
def goExt (name : String) : String :=
  (extAux [] name.data.reverse).getD ""

/-- Go `strings.HasPrefix(s, pre)`, on the underlying character lists. -/
def hasPrefixGo (s pre : String) : Bool :=
  pre.data.isPrefixOf s.data

/-- The selection test of Go `recoverFallbackLogs`:
`filepath.Ext(file.Name()) == ".log" && strings.HasPrefix(file.Name(), "fallback_")`. -/
def isFallbackFile (name : String) : Bool :=
  goExt name = ".log" && hasPrefixGo name "fallback_"

/-- Name given to a quarantined file: Go `os.Rename(filePath, filePath+".corrupt")`. -/
def quarantineName (name : String) : String :=
  name ++ ".corrupt"

/-- What one recovery cycle does to one directory entry. -/
inductive FileAction where
  | skipped
  | renamed
  | removed
  | kept
deriving DecidableEq, Repr

/-- Action of one recovery cycle on one directory entry: entries failing
the fallback-name test are not processed at all; selected files follow
`processFallbackFile`'s disposition. -/
def fileAction (parse : String → Option LogData) (be : BatchEnv)
    (name : String) (lines : List String) : FileAction :=
  if isFallbackFile name then
    match (processFallbackFile parse be lines).disposition with
    | .renamedCorrupt => .renamed
    | .deleted => .removed
    | .untouched => .kept
  else
    .skipped

/-- One recovery cycle of Go `recoverFallbackLogs` over a directory listing
(pairs of file name and file lines): every entry gets its action. -/
def recoverFallbackLogs (parse : String → Option LogData) (be : BatchEnv)
    (dir : List (String × List String)) : List (String × FileAction) :=
  dir.map (fun f => (f.1, fileAction parse be f.1 f.2))

/-- Batch a file's lines contribute, stated directly: non-empty lines that
parse, in order. Proved equal to what the scan loop accumulates. -/
def goodRecords (parse : String → Option LogData) (lines : List String) : List LogData :=
  (lines.filter (fun l => l.length != 0)).filterMap parse

/-- Corruption flag stated directly: some non-empty line fails to parse. -/
def hasBadLine (parse : String → Option LogData) (lines : List String) : Bool :=
  lines.any (fun l => l.length != 0 && (parse l).isNone)

/-- Concrete identity fields used by the scenario evaluations. -/
def scenarioGlobals : Globals :=
  ⟨"svc", "inst", "fac", "typ"⟩

/-- Environment of a healthy run: marshal succeeds, LPush succeeds. -/
def healthyEnv : Env :=
  ⟨false, none, false, false⟩

/-- Initial pipeline state: empty Redis store, empty spool, no zap output. -/
def emptyState : PState :=
  ⟨[], [], []⟩

/-- The three producer calls of the spec scenario, in submission order. -/
def scenarioEntries : List QEntry :=
  [⟨"info", "a", [("k", "v1")]⟩, ⟨"warn", "b", [("k", "v2")]⟩, ⟨"error", "c", [("k", "v3")]⟩]

/-- A concrete well-formed spool record used by witnesses. -/
def sampleRec : LogData :=
  ⟨0, "info", "m", [], "svc", "inst", "fac", "typ"⟩

/-- A concrete line parser used by witnesses: only the line "good" parses. -/
def parseSample : String → Option LogData :=
  fun l => if l = "good" then some sampleRec else none

/-- The scan loop accumulates exactly the parseable non-empty lines (in
order) and flags corruption exactly when some non-empty line fails to
parse. -/
theorem scanLines_eq (parse : String → Option LogData) (lines : List String) :
    ∀ acc : List LogData × Bool,
      scanLines parse lines acc
        = (acc.1 ++ goodRecords parse lines, acc.2 || hasBadLine parse lines) := by
  induction lines with
  | nil =>
    intro acc
    simp [scanLines, goodRecords, hasBadLine]
  | cons l rest ih =>
    intro acc
    by_cases hl : l.length = 0
    · have hfe : (l.length != 0) = false := by simp [hl]
      simp [scanLines, hl, ih, goodRecords, hasBadLine, hfe]
    · cases hp : parse l with
      | none =>
        have hne : (l.length != 0) = true := by simpa using hl
        simp [scanLines, hl, hp, ih, goodRecords, hasBadLine, hne]
      | some d =>
        have hne : (l.length != 0) = true := by simpa using hl
        simp [scanLines, hl, hp, ih, goodRecords, hasBadLine, hne]


/-- Step of `enqueueAll` when the open queue has room: the entry is
buffered and the fold continues. -/
theorem enqueueAll_cons_room (cap : Nat) (buf : List QEntry) (en : QEntry)
    (rest : List QEntry) (h : buf.length < cap) :
    enqueueAll ⟨cap, buf, false⟩ (en :: rest)
      = enqueueAll ⟨cap, buf ++ [⟨en.level, en.message, en.fields⟩], false⟩ rest := by
  simp [enqueueAll, logAsync, h]

/-- Step of `enqueueAll` when the open queue is full: the entry is dropped
with its warning and the fold continues on the unchanged queue. -/
theorem enqueueAll_cons_full (cap : Nat) (buf : List QEntry) (en : QEntry)
    (rest : List QEntry) (h : ¬ buf.length < cap) :
    enqueueAll ⟨cap, buf, false⟩ (en :: rest)
      = (enqueueAll ⟨cap, buf, false⟩ rest).map
          (fun p => (p.1, queueFullWarn en.level en.message :: p.2)) := by
  simp [enqueueAll, logAsync, h]

/-- Folding producer calls through `logAsync` on an open queue never
panics: the first `cap - len` entries are appended in order and every
later entry is dropped with its own queue-full warning. -/
theorem enqueueAll_eq (es : List QEntry) :
    ∀ q : Queue, q.closed = false → q.buf.length ≤ q.cap →
      enqueueAll q es
        = some ({ cap := q.cap, buf := q.buf ++ es.take (q.cap - q.buf.length), closed := false },
            (es.drop (q.cap - q.buf.length)).map (fun en => queueFullWarn en.level en.message)) := by
  induction es with
  | nil =>
    intro q hc hle
    obtain ⟨cap, buf, closed⟩ := q
    simp only at hc
    subst hc
    simp [enqueueAll]
  | cons en rest ih =>
    intro q hc hle
    obtain ⟨cap, buf, closed⟩ := q
    simp only at hc hle
    subst hc
    by_cases hlt : buf.length < cap
    · have h1 : cap - buf.length = (cap - (buf.length + 1)) + 1 := by omega
      have h2 := ih ⟨cap, buf ++ [⟨en.level, en.message, en.fields⟩], false⟩ rfl
        (by simp only [List.length_append, List.length_cons, List.length_nil]; omega)
      simp only [List.length_append, List.length_cons, List.length_nil, Nat.zero_add,
        Nat.add_zero] at h2
      rw [enqueueAll_cons_room cap buf en rest hlt, h2, h1]
      simp [List.take_succ_cons, List.drop_succ_cons, List.append_assoc]
    · have h0 : cap - buf.length = 0 := by omega
      have h2 := ih ⟨cap, buf, false⟩ rfl hle
      rw [enqueueAll_cons_full cap buf en rest hlt, h2]
      simp [h0]

/-- Appending the corruption suffix always yields the extension ".corrupt":
the appended dot is the last dot of the new name. -/
theorem goExt_quarantine (name : String) : goExt (quarantineName name) = ".corrupt" := by
  cases name with
  | mk l =>
    have hdata : (quarantineName ⟨l⟩).data = l ++ ['.', 'c', 'o', 'r', 'r', 'u', 'p', 't'] := rfl
    simp only [goExt, hdata, List.reverse_append]
    simp [extAux]

/-- A quarantined name never passes the scanner's selection test again. -/
theorem isFallbackFile_quarantine (name : String) :
    isFallbackFile (quarantineName name) = false := by
  simp [isFallbackFile, goExt_quarantine]


/-- C1: queue of size 10, three producer calls Info("a"), Warn("b"),
Error("c") against a healthy sink with fixed identity fields. All three
calls are buffered in FIFO order and, after the dispatcher drains them,
the sink's list at the computed key has length 3 — but because the source
uses LPUSH (which prepends) while its own comment says "append" and its
own test `TestLogQueueProcessingWithMiniredis` asserts the first entry is
the info one, the first (head) entry decodes to level "error", message
"c"; the info entry sits last. This evaluates the code at the claim's
failing input. -/
theorem c1_scenario_head_is_error :
    enqueueAll ⟨10, [], false⟩ scenarioEntries = some (⟨10, scenarioEntries, false⟩, [])
    ∧ (getList (processLogs scenarioGlobals 0 healthyEnv emptyState scenarioEntries).store
        (logToRedisKey scenarioGlobals)).length = 3
    ∧ ((getList (processLogs scenarioGlobals 0 healthyEnv emptyState scenarioEntries).store
        (logToRedisKey scenarioGlobals)).head?.map (fun d => (d.level, d.message)))
        = some ("error", "c")
    ∧ ((getList (processLogs scenarioGlobals 0 healthyEnv emptyState scenarioEntries).store
        (logToRedisKey scenarioGlobals)).getLast?.map (fun d => (d.level, d.message)))
        = some ("info", "a") := by
  decide

/-- C2 counterexample: at a concrete identity (facility "fac", type "typ",
service "svc", instance "inst"), neither the dispatcher's key nor the
recovery scanner's recomputed key equals the spec's routing string
`<facility_id>:<instance_type>:<service_name>:<instance_id>` — the source
prepends "applogs:". -/
theorem c2_counterexample :
    logToRedisKey scenarioGlobals ≠ specRoutingKey "fac" "typ" "svc" "inst"
    ∧ pushBatchKey sampleRec ≠ specRoutingKey "fac" "typ" "svc" "inst" := by
  decide

/-- C2 amended: for every entry, the append-target key built by the
dispatcher (`LogToRedis`) and the one the recovery scanner recomputes from
the record's own embedded identity fields (`pushBatchToRedis`, one queued
push per record) both equal "applogs:" followed by
`<facility_id>:<instance_type>:<service_name>:<instance_id>`. -/
theorem c2_routing_key_amended (g : Globals) (d : LogData) (be : BatchEnv)
    (logs : List LogData) :
    logToRedisKey g
      = "applogs:" ++ specRoutingKey g.facilityID g.instanceType g.serviceName g.instanceID
    ∧ pushBatchKey d
      = "applogs:" ++ specRoutingKey d.facility_id d.instance_type d.service_name d.instance_id
    ∧ (pushBatchToRedis be logs).1 = logs.map (fun x => (pushBatchKey x, x)) := by
  refine ⟨?_, ?_, rfl⟩ <;>
    simp [logToRedisKey, pushBatchKey, specRoutingKey, String.append_assoc]

/-- C4: the source's `logAsync` performs a channel send inside `select`;
once `StopLogger` has closed the queue, the send case is ready and a send
on a closed channel panics, so every enqueue after close raises back to
the producer instead of being a no-op or a reported error. -/
theorem c4_enqueue_after_close_panics (q : Queue) (level message : String) (fields : Metadata) :
    logAsync (StopLogger q).1 level message fields = EnqResult.panicked := by
  simp [logAsync, StopLogger]

/-- C3: on an open queue, an enqueue below capacity appends in FIFO order;
an enqueue at capacity returns (no blocking is possible: `logAsync` is a
total function of the queue), drops the entry and emits the queue-full
warning carrying the dropped entry's level and message; and N+1 enqueues
into an empty queue of capacity N with a stalled consumer all complete,
buffering the first N and dropping exactly the (N+1)-th with its
warning. -/
theorem c3_enqueue_fifo_and_overflow (q : Queue) (level message : String) (fields : Metadata)
    (N : Nat) (es : List QEntry) (hc : q.closed = false) (hN : es.length = N + 1) :
    (q.buf.length < q.cap →
      logAsync q level message fields
        = EnqResult.enqueued { q with buf := q.buf ++ [⟨level, message, fields⟩] })
    ∧ (q.buf.length = q.cap →
      logAsync q level message fields = EnqResult.dropped q (queueFullWarn level message))
    ∧ enqueueAll ⟨N, [], false⟩ es
        = some (⟨N, es.take N, false⟩, (es.drop N).map (fun en => queueFullWarn en.level en.message))
    ∧ (es.drop N).length = 1 := by
  refine ⟨?_, ?_, ?_, ?_⟩
  · intro h
    simp [logAsync, hc, h]
  · intro h
    simp [logAsync, hc, h]
  · have h := enqueueAll_eq es ⟨N, [], false⟩ rfl (by simp)
    simpa using h
  · simp [List.length_drop, hN]

/-- C3 witness: capacity 2, three calls with a stalled consumer — the
first two entries are buffered in order, the third is dropped with its
queue-full warning. -/
theorem c3_witness :
    ((⟨2, [⟨"info", "x", []⟩, ⟨"info", "y", []⟩], false⟩ : Queue).closed = false
        ∧ ([⟨"info", "p", []⟩, ⟨"info", "q", []⟩, ⟨"warn", "r", []⟩] : List QEntry).length = 2 + 1)
    ∧ enqueueAll ⟨2, [], false⟩ [⟨"info", "p", []⟩, ⟨"info", "q", []⟩, ⟨"warn", "r", []⟩]
        = some (⟨2, ([⟨"info", "p", []⟩, ⟨"info", "q", []⟩, ⟨"warn", "r", []⟩] : List QEntry).take 2, false⟩,
            (([⟨"info", "p", []⟩, ⟨"info", "q", []⟩, ⟨"warn", "r", []⟩] : List QEntry).drop 2).map
              (fun en => queueFullWarn en.level en.message)) :=
  ⟨⟨rfl, rfl⟩,
    (c3_enqueue_fifo_and_overflow ⟨2, [⟨"info", "x", []⟩, ⟨"info", "y", []⟩], false⟩ "warn" "m" []
      2 [⟨"info", "p", []⟩, ⟨"info", "q", []⟩, ⟨"warn", "r", []⟩] rfl rfl).2.2.1⟩

/-- C5: for a dequeued entry whose remote append fails (marshal succeeded,
LPush returned an error), the sink-unavailable classification sends the
entry to the fallback store (after the mirror warning) and touches nothing
else, while any other error only records an error via the
structured-logger collaborator: the entry reaches neither the store nor
the fallback spool and is not retried. -/
theorem c5_push_failure_classification (g : Globals) (now : Nat) (st : PState)
    (level message : String) (fields : Metadata) (err : RedisErr) :
    (isRedisUnavailable err = true →
      LogToRedis g now ⟨false, some err, false, false⟩ st level message fields
        = { st with
            zap := st.zap ++ [⟨"warn", "Redis unavailable, saving to fallback", []⟩],
            fallback := st.fallback ++ [mkLogData g now level message fields] })
    ∧ (isRedisUnavailable err = false →
      LogToRedis g now ⟨false, some err, false, false⟩ st level message fields
        = { st with zap := st.zap ++ [⟨"error", "Failed to push log to Redis", []⟩] }) := by
  constructor <;> intro h <;> simp [LogToRedis, logToFallback, mkLogData, h]

/-- C5 witness: a connection-refused error is classified unavailable and
the entry lands in the fallback spool. -/
theorem c5_witness :
    isRedisUnavailable (RedisErr.other "dial tcp: connection refused") = true
    ∧ LogToRedis scenarioGlobals 0 ⟨false, some (RedisErr.other "dial tcp: connection refused"), false, false⟩
        emptyState "info" "m" []
        = { emptyState with
            zap := emptyState.zap ++ [⟨"warn", "Redis unavailable, saving to fallback", []⟩],
            fallback := emptyState.fallback ++ [mkLogData scenarioGlobals 0 "info" "m" []] } :=
  ⟨by decide,
    (c5_push_failure_classification scenarioGlobals 0 emptyState "info" "m" []
      (RedisErr.other "dial tcp: connection refused")).1 (by decide)⟩

/-- C6: disposition of a spool file in a recovery cycle — renamed with the
corruption suffix as soon as any (non-empty) line failed to parse,
regardless of the batch outcome; deleted when no line failed and the
grouped write reported no per-record failure; left untouched when no line
failed but the grouped write (issued because the batch is non-empty)
failed. -/
theorem c6_spool_file_disposition (parse : String → Option LogData) (be : BatchEnv)
    (lines : List String) :
    (hasBadLine parse lines = true →
      (processFallbackFile parse be lines).disposition = Disposition.renamedCorrupt)
    ∧ (hasBadLine parse lines = false →
        (pushBatchToRedis be (goodRecords parse lines)).2 = none →
      (processFallbackFile parse be lines).disposition = Disposition.deleted)
    ∧ (hasBadLine parse lines = false → goodRecords parse lines ≠ [] →
        (pushBatchToRedis be (goodRecords parse lines)).2.isSome = true →
      (processFallbackFile parse be lines).disposition = Disposition.untouched) := by
  have hscan := scanLines_eq parse lines ([], false)
  simp only [List.nil_append, Bool.false_or] at hscan
  refine ⟨?_, ?_, ?_⟩
  · intro hbad
    simp [processFallbackFile, hscan, hbad]
  · intro hbad hpush
    simp [processFallbackFile, hscan, hbad, hpush]
  · intro hbad hne hpush
    have hlen : 0 < (goodRecords parse lines).length := List.length_pos.mpr hne
    simp [processFallbackFile, hscan, hbad, hpush, hlen]

/-- C6 witness: one parseable line, per-record results all nil — the file
is deleted. -/
theorem c6_witness :
    (hasBadLine parseSample ["good"] = false
        ∧ (pushBatchToRedis ⟨none, [none]⟩ (goodRecords parseSample ["good"])).2 = none)
    ∧ (processFallbackFile parseSample ⟨none, [none]⟩ ["good"]).disposition = Disposition.deleted :=
  ⟨⟨by decide, by decide⟩,
    (c6_spool_file_disposition parseSample ⟨none, [none]⟩ ["good"]).2.1 (by decide) (by decide)⟩

/-- C7: a spool file with at least one malformed (non-empty) line and at
least one well-formed line is quarantined, never deleted, and the scan
still accumulates every well-formed line's record — the batch is exactly
the parseable non-empty lines in order, it is non-empty so the grouped
push is issued, with one queued push per record at its own key. -/
theorem c7_corruption_isolation (parse : String → Option LogData) (be : BatchEnv)
    (lines : List String) (hbad : hasBadLine parse lines = true)
    (hgood : goodRecords parse lines ≠ []) :
    (processFallbackFile parse be lines).disposition = Disposition.renamedCorrupt
    ∧ (processFallbackFile parse be lines).disposition ≠ Disposition.deleted
    ∧ (processFallbackFile parse be lines).batch = goodRecords parse lines
    ∧ (processFallbackFile parse be lines).pushed = true
    ∧ (pushBatchToRedis be (goodRecords parse lines)).1
        = (goodRecords parse lines).map (fun d => (pushBatchKey d, d)) := by
  have hscan := scanLines_eq parse lines ([], false)
  simp only [List.nil_append, Bool.false_or] at hscan
  have hlen : 0 < (goodRecords parse lines).length := List.length_pos.mpr hgood
  refine ⟨?_, ?_, ?_, ?_, rfl⟩ <;> simp [processFallbackFile, hscan, hbad, hlen]

/-- C7 witness: one malformed line followed by one well-formed line — the
file is quarantined and the well-formed record is still batched. -/
theorem c7_witness :
    (hasBadLine parseSample ["bad", "good"] = true
        ∧ goodRecords parseSample ["bad", "good"] ≠ [])
    ∧ (processFallbackFile parseSample ⟨none, [none]⟩ ["bad", "good"]).disposition
        = Disposition.renamedCorrupt
    ∧ (processFallbackFile parseSample ⟨none, [none]⟩ ["bad", "good"]).batch
        = goodRecords parseSample ["bad", "good"] :=
  ⟨⟨by decide, by decide⟩,
    (c7_corruption_isolation parseSample ⟨none, [none]⟩ ["bad", "good"] (by decide) (by decide)).1,
    (c7_corruption_isolation parseSample ⟨none, [none]⟩ ["bad", "good"] (by decide) (by decide)).2.2.1⟩

/-- C8: a name matching the fallback convention no longer matches it after
the corruption suffix is appended — its extension becomes ".corrupt" — so
a later recovery cycle classifies the quarantined file as skipped: it is
neither processed nor removed. -/
theorem c8_quarantine_excluded (parse : String → Option LogData) (be : BatchEnv)
    (name : String) (lines : List String) (h : isFallbackFile name = true) :
    isFallbackFile (quarantineName name) = false
    ∧ fileAction parse be (quarantineName name) lines = FileAction.skipped
    ∧ fileAction parse be (quarantineName name) lines ≠ FileAction.removed
    ∧ recoverFallbackLogs parse be [(quarantineName name, lines)]
        = [(quarantineName name, FileAction.skipped)] := by
  have hq := isFallbackFile_quarantine name
  refine ⟨hq, ?_, ?_, ?_⟩ <;> simp [fileAction, recoverFallbackLogs, hq]

/-- C8 witness: the quarantined form of "fallback_1.log" is skipped by the
next cycle. -/
theorem c8_witness :
    isFallbackFile "fallback_1.log" = true
    ∧ fileAction parseSample ⟨none, []⟩ (quarantineName "fallback_1.log") []
        = FileAction.skipped :=
  ⟨by decide,
    (c8_quarantine_excluded parseSample ⟨none, []⟩ "fallback_1.log" [] (by decide)).2.1⟩

/-- C9 counterexample: when the spool-file open succeeds but the write
fails, the source discards `WriteString`'s result, so no error is recorded
via the structured-logger collaborator even though the entry is lost —
refuting the claim for write failures. -/
theorem c9_counterexample :
    (logToFallback ⟨false, none, false, true⟩ emptyState sampleRec).zap = []
    ∧ (logToFallback ⟨false, none, false, true⟩ emptyState sampleRec).fallback = [] := by
  decide

/-- C9 amended: a fallback append whose file open fails records an error
via the structured-logger collaborator and loses the entry; a failed write
is not detected (its error is discarded), so the entry is lost silently;
in every case no secondary fallback target is attempted and nothing is
surfaced to the producer's control flow (`logToFallback` always returns a
state). -/
theorem c9_fallback_failure_amended (e : Env) (st : PState) (d : LogData) :
    (e.openErr = true →
      logToFallback e st d
        = { st with zap := st.zap ++ [⟨"error", "Failed to open fallback log file", []⟩] })
    ∧ (e.openErr = false → e.writeErr = true → logToFallback e st d = st)
    ∧ (e.openErr = false → e.writeErr = false →
      logToFallback e st d = { st with fallback := st.fallback ++ [d] }) := by
  refine ⟨?_, ?_, ?_⟩ <;> intros <;> simp_all [logToFallback]

/-- C9 witness: an open failure records exactly the error and loses the
entry. -/
theorem c9_witness :
    (⟨false, none, true, false⟩ : Env).openErr = true
    ∧ logToFallback ⟨false, none, true, false⟩ emptyState sampleRec
        = { emptyState with
            zap := emptyState.zap ++ [⟨"error", "Failed to open fallback log file", []⟩] } :=
  ⟨rfl, (c9_fallback_failure_amended ⟨false, none, true, false⟩ emptyState sampleRec).1 rfl⟩

/-- C10: a matching spool file whose lines are all empty (including the
empty file) is deleted without anything being submitted: empty lines are
skipped without setting the corruption flag, the batch stays empty so the
grouped write is never issued, and the non-corrupt non-failed branch
removes the file. -/
theorem c10_empty_file_deleted (parse : String → Option LogData) (be : BatchEnv)
    (lines : List String) (h : ∀ l ∈ lines, l = "") :
    (processFallbackFile parse be lines).disposition = Disposition.deleted
    ∧ (processFallbackFile parse be lines).batch = []
    ∧ (processFallbackFile parse be lines).pushed = false := by
  have hscan := scanLines_eq parse lines ([], false)
  simp only [List.nil_append, Bool.false_or] at hscan
  have hfilter : lines.filter (fun l => l.length != 0) = [] := by
    rw [List.filter_eq_nil_iff]
    intro l hl
    simp [h l hl]
  have hgood : goodRecords parse lines = [] := by
    simp [goodRecords, hfilter]
  have hbad : hasBadLine parse lines = false := by
    rw [hasBadLine, List.any_eq_false]
    intro l hl
    simp [h l hl]
  simp [processFallbackFile, hscan, hgood, hbad]

/-- C10 witness: a file of two empty lines is deleted with an empty batch
and no push. -/
theorem c10_witness :
    (∀ l ∈ (["", ""] : List String), l = "")
    ∧ (processFallbackFile parseSample ⟨none, []⟩ ["", ""]).disposition = Disposition.deleted :=
  ⟨by decide, (c10_empty_file_deleted parseSample ⟨none, []⟩ ["", ""] (by decide)).1⟩

end Applogs
